import Mathlib

/-!
# music_libsndfile.cpp : the SndFileSong streaming adapter

A shallow embedding of `src/sound/musicformats/music_libsndfile.cpp`.

* `size_t` is the 64 bit unsigned type: values are naturals below `SIZE_MOD`
  and every `size_t` operation is reduced modulo `SIZE_MOD`.
* `uint32_t` values are naturals below `UINT32_MOD`.
* The decoder (`SoundDecoder`), the file reader (`FileReader`) and the decoder
  factory are external to the file; they are parameters of the embedding.
* Stateful code is written in state-passing style over a `World` that holds
  the decoder state, the bytes of the output buffer and the list of the
  external calls made so far.
-/

namespace MusicLibSndFile

/-! ## Machine integers -/

/-- Number of values of `size_t` (64 bit). -/
def SIZE_MOD : Nat := 2 ^ 64

/-- Number of values of `uint32_t`. -/
def UINT32_MOD : Nat := 2 ^ 32

/-- Number of values of `int`; an `int` lies in `[-INT_MOD/2, INT_MOD/2)`. -/
def INT_MOD : Nat := 2 ^ 32

/-- Conversion `size_t(x)` of a signed integer. -/
def toSize (x : Int) : Nat := (x % (SIZE_MOD : Int)).toNat

/-- Conversion `(uint32_t)x` of an unsigned value. -/
def toUInt32 (x : Nat) : Nat := x % UINT32_MOD

/-- Conversion `int(x)` of an unsigned value, wrapping modulo `INT_MOD`. -/
def toInt (x : Nat) : Int := ((x : Int) + (INT_MOD / 2 : Nat)) % (INT_MOD : Nat) - (INT_MOD / 2 : Nat)

/-- Addition of two `size_t` values. -/
def sizeAdd (a b : Nat) : Nat := (a + b) % SIZE_MOD

/-- Multiplication of two `size_t` values. -/
def sizeMul (a b : Nat) : Nat := (a * b) % SIZE_MOD

/-- Subtraction of two `size_t` values, wrapping below zero. -/
def sizeSub (a b : Nat) : Nat := (a + (SIZE_MOD - b % SIZE_MOD)) % SIZE_MOD

/-- A byte of the output buffer. -/
abbrev Byte := Nat

/-! ## External interfaces -/

/-- Values of `enum ChannelConfig` used by this file. -/
inductive ChannelConfig
  | ChannelConfig_Mono
  | ChannelConfig_Stereo
  deriving DecidableEq, Repr

/-- Values of `enum SampleType`. -/
inductive SampleType
  | SampleType_UInt8
  | SampleType_Int16
  deriving DecidableEq, Repr

/-- The `SoundDecoder` interface over decoder states `σ`.  `read s n` is the
call `read(buffer, n)`: it yields the bytes stored at `buffer` (their number
is the returned count) and the next decoder state.  The `size_t` results are
below `SIZE_MOD`. -/
structure SoundDecoder (σ : Type) where
  getInfo : σ → Int × ChannelConfig × SampleType
  read : σ → Nat → List Byte × σ
  seek : σ → Nat → Bool → Bool × σ
  getSampleOffset : σ → Nat
  getSampleLength : σ → Nat
  read_lt : ∀ s n, (read s n).1.length < SIZE_MOD
  getSampleOffset_lt : ∀ s, getSampleOffset s < SIZE_MOD
  getSampleLength_lt : ∀ s, getSampleLength s < SIZE_MOD

/-- Value of `SoundStream::Mono`, a stream creation flag. -/
def SoundStream_Mono : Nat := 1

/-- Arguments of `GSnd->CreateStream(Read, buffbytes, flags, samplerate, this)`
kept as `m_Stream` of the song. -/
structure SoundStream where
  buffbytes : Nat
  flags : Nat
  samplerate : Int
  deriving DecidableEq, Repr

/-- Values of `MusInfo::m_Status` used by this file. -/
inductive EMusicState
  | STATE_Stopped
  | STATE_Playing
  deriving DecidableEq, Repr

/-! ## The song -/

/-- The class `SndFileSong` (with the members of `StreamSong`/`MusInfo` it
uses) over reader states `ρ` and decoder states `σ`.  `Loop_Start` and
`Loop_End` are `uint32_t`. -/
structure SndFileSong (ρ σ : Type) where
  Reader : ρ
  Decoder : σ
  Channels : Nat
  SampleRate : Int
  Loop_Start : Nat
  Loop_End : Nat
  m_Stream : SoundStream
  m_Looping : Bool
  m_Status : EMusicState
  Loop_Start_lt : Loop_Start < UINT32_MOD
  Loop_End_lt : Loop_End < UINT32_MOD

/-! ## The world of `Read` -/

/-- External calls made by `Read`, in order.  `SizeSub a b` is a ghost event
recording that the `size_t` subtraction `a - b` was evaluated. -/
inductive Event
  | Enter
  | Leave
  | GetSampleOffset (pos : Nat)
  | GetSampleLength (len : Nat)
  | DecRead (off req got : Nat)
  | DecSeek (pos : Nat) (ms : Bool)
  | Memset (off n : Nat)
  | SizeSub (a b : Nat)
  deriving DecidableEq, Repr

/-- State threaded through `Read`: decoder state, buffer bytes, call log. -/
structure World (σ : Type) where
  Decoder : σ
  mem : List Byte
  trace : List Event

/-- Store `data` in `buf` from byte offset `off` on. -/
def writeAt (buf : List Byte) (off : Nat) (data : List Byte) : List Byte :=
  buf.take off ++ data ++ buf.drop (off + data.length)

/-- The call `CritSec.Enter()`. -/
def CritSec_Enter {σ : Type} (w : World σ) : World σ :=
  { w with trace := w.trace ++ [Event.Enter] }

/-- The call `CritSec.Leave()`. -/
def CritSec_Leave {σ : Type} (w : World σ) : World σ :=
  { w with trace := w.trace ++ [Event.Leave] }

/-- The call `Decoder->getSampleOffset()`. -/
def Decoder_getSampleOffset {σ : Type} (d : SoundDecoder σ) (w : World σ) : Nat × World σ :=
  let pos := d.getSampleOffset w.Decoder
  (pos, { w with trace := w.trace ++ [Event.GetSampleOffset pos] })

/-- The call `Decoder->getSampleLength()`. -/
def Decoder_getSampleLength {σ : Type} (d : SoundDecoder σ) (w : World σ) : Nat × World σ :=
  let len := d.getSampleLength w.Decoder
  (len, { w with trace := w.trace ++ [Event.GetSampleLength len] })

/-- The call `Decoder->read(vbuff + off, n)`. -/
def Decoder_read {σ : Type} (d : SoundDecoder σ) (w : World σ) (off n : Nat) : Nat × World σ :=
  let r := d.read w.Decoder n
  (r.1.length,
    { Decoder := r.2, mem := writeAt w.mem off r.1,
      trace := w.trace ++ [Event.DecRead off n r.1.length] })

/-- The call `Decoder->seek(pos, ms)`. -/
def Decoder_seek {σ : Type} (d : SoundDecoder σ) (w : World σ) (pos : Nat) (ms : Bool) :
    Bool × World σ :=
  let r := d.seek w.Decoder pos ms
  (r.1, { w with Decoder := r.2, trace := w.trace ++ [Event.DecSeek pos ms] })

/-- The call `memset(vbuff + off, c, n)`. -/
def memset {σ : Type} (w : World σ) (off : Nat) (c : Byte) (n : Nat) : World σ :=
  { w with mem := writeAt w.mem off (List.replicate n c),
           trace := w.trace ++ [Event.Memset off n] }

/-- The `size_t` subtraction `a - b`, logged. -/
def subSize {σ : Type} (w : World σ) (a b : Nat) : Nat × World σ :=
  (sizeSub a b, { w with trace := w.trace ++ [Event.SizeSub a b] })

/-! ## SndFileSong :: Read -/

/-- `SndFileSong::Read(stream, vbuff, ilen, userdata)` with `userdata = song`.
`buff` is the byte offset of the write pointer from `vbuff`.  Returns the
result and the final world. -/
def SndFileSong.Read {ρ σ : Type} (d : SoundDecoder σ) (song : SndFileSong ρ σ)
    (vbuff : List Byte) (ilen : Int) : Bool × World σ :=
  let buff : Nat := 0
  let w : World σ := CritSec_Enter { Decoder := song.Decoder, mem := vbuff, trace := [] }
  let len := toSize ilen
  let (currentpos, w) := Decoder_getSampleOffset d w
  let framestoread := len / toSize ((song.Channels : Int) * 2)
  let err := false
  if !song.m_Looping then
    let (maxpos, w) := Decoder_getSampleLength d w
    if currentpos = maxpos then
      let w := memset w buff 0 len
      let w := CritSec_Leave w
      (false, w)
    else
      let (err, w) :=
        if sizeAdd currentpos framestoread > maxpos then
          let (diff, w) := subSize w maxpos currentpos
          let (got, w) := Decoder_read d w buff (sizeMul (sizeMul diff song.Channels) 2)
          let (rest, w) := subSize w len got
          let w := memset w (buff + got) 0 rest
          (err, w)
        else
          let (got, w) := Decoder_read d w buff len
          (got != len, w)
      let w := CritSec_Leave w
      (!err, w)
  else
    let (err, buff, len, w) :=
      if sizeAdd currentpos framestoread > song.Loop_End then
        let (diff, w) := subSize w song.Loop_End currentpos
        let endblock := sizeMul (sizeMul diff song.Channels) 2
        let (got, w) := Decoder_read d w buff endblock
        let err := got != endblock
        let buff := buff + endblock
        let (len, w) := subSize w len endblock
        let (_, w) := Decoder_seek d w song.Loop_Start false
        (err, buff, len, w)
      else
        (err, buff, len, w)
    let (got, w) := Decoder_read d w buff len
    let err := err || (got != len)
    let w := CritSec_Leave w
    (!err, w)

/-! ## SndFileSong :: GetStats -/

/-- Arguments that `GetStats` passes to `out.Format` after the format string:
the channel name, the sample rate, `time/60` and `time % 60`. -/
structure StatsArgs where
  channels : String
  rate : Int
  minutes : Int
  seconds : Int
  deriving DecidableEq, Repr

/-- `SndFileSong::GetStats()`, up to the formatting done by `FString::Format`.
`SamplePos / SampleRate` is a `size_t` division, `time/60` and `time % 60` are
`int` operations (rounding toward zero). -/
def SndFileSong.GetStats {ρ σ : Type} (d : SoundDecoder σ) (song : SndFileSong ρ σ) : StatsArgs :=
  let SamplePos := d.getSampleOffset song.Decoder
  let time : Int := toInt (SamplePos / toSize song.SampleRate)
  { channels := if song.Channels = 2 then "Stereo" else "Mono"
    rate := song.SampleRate
    minutes := Int.tdiv time 60
    seconds := Int.tmod time 60 }

/-! ## Construction -/

/-- Modelled from the spec: `clamp` comes from `templates.h`, which is not among
the sources.  It is the usual three-way clamp
`in <= min ? min : in >= max ? max : in`; the reading of `Loop_End` as the
sample length truncated to 32 bits relies on `clamp(0xFFFFFFFF, 0, hi) = hi`. -/
def clamp (v lo hi : Nat) : Nat :=
  if v ≤ lo then lo else if v ≥ hi then hi else v

/-- `SndFileSong::SndFileSong(reader, decoder, loop_start, loop_end)`.  The two
loop arguments are `uint32_t`.  `m_Looping` and `m_Status` get the initial
values of the base class. -/
def SndFileSong.ctor {ρ σ : Type} (d : SoundDecoder σ) (reader : ρ) (decoder : σ)
    (loop_start loop_end : Nat) (h1 : loop_start < UINT32_MOD)
    (h2 : loop_end < UINT32_MOD) : SndFileSong ρ σ :=
  let info := d.getInfo decoder
  let SampleRate := info.1
  let iChannels := info.2.1
  { Loop_Start := loop_start
    Loop_End := clamp loop_end 0 (toUInt32 (d.getSampleLength decoder))
    Reader := reader
    Decoder := decoder
    Channels := if iChannels = ChannelConfig.ChannelConfig_Stereo then 2 else 1
    SampleRate := SampleRate
    m_Stream :=
      { buffbytes := 32 * 1024
        flags := if iChannels = ChannelConfig.ChannelConfig_Stereo then 0 else SoundStream_Mono
        samplerate := SampleRate }
    m_Looping := false
    m_Status := EMusicState.STATE_Stopped
    Loop_Start_lt := h1
    Loop_End_lt := by
      have h3 : toUInt32 (d.getSampleLength decoder) < UINT32_MOD :=
        Nat.mod_lt _ (by decide)
      unfold clamp
      split
      · exact Nat.lt_of_le_of_lt (Nat.zero_le _) h3
      · split
        · exact h3
        · exact h2 }

/-- `SndFileSong::Play(looping, track)`; `started` is the answer of
`m_Stream->Play(looping, 1)`. -/
def SndFileSong.Play {ρ σ : Type} (song : SndFileSong ρ σ) (looping : Bool) (started : Bool) :
    SndFileSong ρ σ :=
  { song with
    m_Looping := looping
    m_Status := if started then EMusicState.STATE_Playing else EMusicState.STATE_Stopped }

/-- Value of `SEEK_SET`. -/
def SEEK_SET : Int := 0

/-- The `FileReader` interface over reader states `ρ`: `Seek r offset origin`,
`Read r len` (the bytes stored in the destination and the next state) and
`Tell r`. -/
structure FileReader (ρ : Type) where
  Seek : ρ → Int → Int → ρ
  Read : ρ → Nat → List Byte × ρ
  Tell : ρ → Int

/-- External calls made by `SndFile_OpenSong`, in order. -/
inductive OpenEvent
  | FrSeek (offset origin : Int)
  | FrRead (len : Nat)
  | CreateDecoder
  | NewSong
  deriving DecidableEq, Repr

/-- Result of `SndFile_OpenSong`: the returned pointer (`none` is `nullptr`),
the signature bytes that were compared, the reader handed to the decoder
factory, the reader state at return and the call log. -/
structure OpenResult (ρ σ : Type) where
  song : Option (SndFileSong ρ σ)
  signature : List Byte
  probed : ρ
  reader : ρ
  log : List OpenEvent

/-- Bytes of a four character tag. -/
def tagBytes (t : String) : List Byte := t.toList.map Char.toNat

/-- `memcmp(a, b, 4)` reduced to its test against zero. -/
def memcmp4 (a b : List Byte) : Bool := a.take 4 != b.take 4

/-- `SndFile_OpenSong(fr)`.  `CreateDecoder` is `SoundRenderer::CreateDecoder`;
`signature0` is the indeterminate initial content of the local array
`signature[4]`. -/
def SndFile_OpenSong {ρ σ : Type} (frOps : FileReader ρ) (d : SoundDecoder σ)
    (CreateDecoder : ρ → Option σ × ρ) (signature0 : List Byte) (fr : ρ) : OpenResult ρ σ :=
  let fr1 := frOps.Seek fr 0 SEEK_SET
  let rd := frOps.Read fr1 4
  let signature := (writeAt signature0 0 (rd.1.take 4)).take 4
  let fr2 := rd.2
  let loop_start : Nat := 0
  let loop_end : Nat := UINT32_MOD - 1
  let loops : Nat × Nat :=
    if !memcmp4 signature (tagBytes "OggS") || !memcmp4 signature (tagBytes "fLaC") then
      -- Todo: Read loop points from metadata
      (loop_start, loop_end)
    else
      (loop_start, loop_end)
  let fr3 := frOps.Seek fr2 0 SEEK_SET
  let cd := CreateDecoder fr3
  let log := [OpenEvent.FrSeek 0 SEEK_SET, OpenEvent.FrRead 4, OpenEvent.FrSeek 0 SEEK_SET,
    OpenEvent.CreateDecoder]
  match cd.1 with
  | none => { song := none, signature := signature, probed := fr3, reader := cd.2, log := log }
  | some decoder =>
    { song := some (SndFileSong.ctor d cd.2 decoder loops.1 loops.2
        (by dsimp only [loops]; split <;> decide) (by dsimp only [loops]; split <;> decide))
      signature := signature, probed := fr3, reader := cd.2
      log := log ++ [OpenEvent.NewSong] }

/-! ## Vocabulary of the statements -/

/-- Frames that fit in the buffer, `len / (Channels*2)` as `Read` computes it. -/
def framesToRead {ρ σ : Type} (song : SndFileSong ρ σ) (ilen : Int) : Nat :=
  toSize ilen / toSize ((song.Channels : Int) * 2)

/-- Total number of bytes requested from the decoder in a call log. -/
def requestedBytes : List Event → Nat
  | [] => 0
  | Event.DecRead _ req _ :: es => req + requestedBytes es
  | _ :: es => requestedBytes es

/-- An event stays inside a buffer of `n` bytes: a decoder read or a zero-fill
targets bytes of `[0, n)` only, and a `size_t` subtraction does not wrap. -/
def Event.InBounds (n : Nat) : Event → Prop
  | Event.DecRead off req _ => off + req ≤ n
  | Event.Memset off k => off + k ≤ n
  | Event.SizeSub a b => b ≤ a
  | _ => True

/-- An event is a call into the decoder. -/
def Event.isDecoderCall : Event → Bool
  | Event.GetSampleOffset _ => true
  | Event.GetSampleLength _ => true
  | Event.DecRead _ _ _ => true
  | Event.DecSeek _ _ => true
  | _ => false

/-! ## Fixtures: a concrete decoder and a concrete reader -/

/-- Read step of `pcmDecoder`: at frame `s`, deliver the next `n` bytes of the
stream, at most `chunk` bytes in one call and cut short at the end of the
stream; byte `i` of the stream is `i % 256`. -/
def pcmRead (channels length chunk s n : Nat) : List Byte × Nat :=
  let k := min (min (n % SIZE_MOD) chunk) ((length - s) * channels * 2)
  ((List.range k).map (fun i => (s * channels * 2 + i) % 256), s + k / (channels * 2))

/-- A decoder of a synthetic 16 bit PCM stream of `length` frames that hands
out at most `chunk` bytes per call; its state is the current frame. -/
def pcmDecoder (channels length chunk : Nat) (rate : Int) (hl : length < SIZE_MOD) :
    SoundDecoder Nat where
  getInfo := fun _ =>
    (rate,
      if channels = 2 then ChannelConfig.ChannelConfig_Stereo
      else ChannelConfig.ChannelConfig_Mono,
      SampleType.SampleType_Int16)
  read := pcmRead channels length chunk
  seek := fun s p _ => if p ≤ length then (true, p) else (false, s)
  getSampleOffset := fun s => min s length
  getSampleLength := fun _ => length
  read_lt := by
    intro s n
    simp only [pcmRead, List.length_map, List.length_range]
    exact Nat.lt_of_le_of_lt (Nat.le_trans (Nat.min_le_left _ _) (Nat.min_le_left _ _))
      (Nat.mod_lt _ (by decide))
  getSampleOffset_lt := fun s => Nat.lt_of_le_of_lt (Nat.min_le_right s length) hl
  getSampleLength_lt := fun _ => hl

/-- State of `memReader`: the file bytes and the read position. -/
structure MemFile where
  data : List Byte
  pos : Nat
  deriving DecidableEq, Repr

/-- A file reader over bytes held in memory; only `SEEK_SET` moves it. -/
def memReader : FileReader MemFile where
  Seek := fun r offset origin => if origin = SEEK_SET then { r with pos := offset.toNat } else r
  Read := fun r len =>
    ((r.data.drop r.pos).take len, { r with pos := r.pos + ((r.data.drop r.pos).take len).length })
  Tell := fun r => r.pos

/-- A decoder factory for `memReader` files: it accepts a file of at least four
bytes, consumes its header and starts the decoder at frame 0. -/
def memCreateDecoder (r : MemFile) : Option Nat × MemFile :=
  if 4 ≤ r.data.length then (some 0, { r with pos := 4 }) else (none, r)

/-- A song with the given fields over a `pcmDecoder` state. -/
def mkSong (channels pos loop_start loop_end : Nat) (looping : Bool)
    (h1 : loop_start < UINT32_MOD) (h2 : loop_end < UINT32_MOD) : SndFileSong Unit Nat :=
  { Reader := ()
    Decoder := pos
    Channels := channels
    SampleRate := 44100
    Loop_Start := loop_start
    Loop_End := loop_end
    m_Stream := { buffbytes := 32 * 1024, flags := 0, samplerate := 44100 }
    m_Looping := looping
    m_Status := EMusicState.STATE_Playing
    Loop_Start_lt := h1
    Loop_End_lt := h2 }

/-- A stereo stream of 100 frames, delivered without chunking. -/
def demoDecoder : SoundDecoder Nat := pcmDecoder 2 100 SIZE_MOD 44100 (by decide)

/-- The stream of `demoDecoder`, delivered at most 16 bytes per call. -/
def chunkedDecoder : SoundDecoder Nat := pcmDecoder 2 100 16 44100 (by decide)

/-- A looping song, five frames before the end of the loop. -/
def demoLoopSong : SndFileSong Unit Nat := mkSong 2 95 0 100 true (by decide) (by decide)

/-- A song played once, five frames before the end of the stream. -/
def demoOnceSong : SndFileSong Unit Nat := mkSong 2 95 0 100 false (by decide) (by decide)

/-- A song played once, at the end of the stream. -/
def demoEndSong : SndFileSong Unit Nat := mkSong 2 100 0 100 false (by decide) (by decide)

/-- A stereo stream of `2^32 + 10` frames. -/
def longDecoder : SoundDecoder Nat := pcmDecoder 2 (2 ^ 32 + 10) SIZE_MOD 44100 (by decide)

/-- The song that the constructor builds over `longDecoder` at frame 0 with the
loop arguments of `SndFile_OpenSong`, started with `Play(true, 0)`. -/
def longLoopSong : SndFileSong Unit Nat :=
  (SndFileSong.ctor longDecoder () 0 0 (UINT32_MOD - 1) (by decide) (by decide)).Play true true

/-- A stereo stream of ten million frames at 44100 Hz. -/
def statsDecoder : SoundDecoder Nat := pcmDecoder 2 10000000 SIZE_MOD 44100 (by decide)

/-- A song over `statsDecoder` at frame five million. -/
def statsSong : SndFileSong Unit Nat := mkSong 2 5000000 0 10000000 false (by decide) (by decide)

/-- A file that starts with the Ogg signature, read position in the middle. -/
def oggFile : MemFile := { data := tagBytes "OggS" ++ [0, 2, 0, 0], pos := 6 }

/-- A file of two bytes, too short for the decoder factory. -/
def shortFile : MemFile := { data := [1, 2], pos := 1 }

/-- A looping song over `longDecoder` at frame 8182, beyond `Loop_End`. -/
def longLoopSongAfter : SndFileSong Unit Nat := { longLoopSong with Decoder := 8182 }

/-! ## Machine arithmetic lemmas -/

theorem toSize_natCast (n : Nat) (h : n < SIZE_MOD) : toSize (n : Int) = n := by
  unfold toSize SIZE_MOD at *
  omega

theorem toSize_channels (c : Nat) (h : c * 2 < 2 ^ 31) : toSize ((c : Int) * 2) = c * 2 := by
  unfold toSize SIZE_MOD
  omega

theorem sizeAdd_of_lt (a b : Nat) (h : a + b < SIZE_MOD) : sizeAdd a b = a + b := by
  unfold sizeAdd
  exact Nat.mod_eq_of_lt h

theorem sizeSub_of_le (a b : Nat) (h : b ≤ a) (ha : a < SIZE_MOD) : sizeSub a b = a - b := by
  unfold sizeSub SIZE_MOD at *
  omega

theorem sizeMul_of_lt (a b : Nat) (h : a * b < SIZE_MOD) : sizeMul a b = a * b := by
  unfold sizeMul
  exact Nat.mod_eq_of_lt h

theorem sizeAdd_gt_imp (a b m : Nat) (hb : b < 2 ^ 31) (ham : a ≤ m) (hm : m < SIZE_MOD)
    (h : sizeAdd a b > m) : a + b > m ∧ a + b < SIZE_MOD := by
  unfold sizeAdd SIZE_MOD at *
  omega

/-- If `a` whole frames fit strictly below `n / (c*2)`, then the `a` frames and one more fit in `n` bytes. -/
theorem frames_fit (a c n : Nat) (h : a < n / (c * 2)) : a * c * 2 + c * 2 ≤ n := by
  have h1 : (a + 1) * (c * 2) ≤ n / (c * 2) * (c * 2) := Nat.mul_le_mul_right _ h
  have h2 : n / (c * 2) * (c * 2) ≤ n := Nat.div_mul_le_self n (c * 2)
  have h3 : (a + 1) * (c * 2) = a * c * 2 + c * 2 := by ring
  omega

/-! ## The five paths of `Read` -/

theorem Read_eos {ρ σ : Type} (d : SoundDecoder σ) (song : SndFileSong ρ σ)
    (vbuff : List Byte) (ilen : Int)
    (hl : song.m_Looping = false)
    (he : d.getSampleOffset song.Decoder = d.getSampleLength song.Decoder) :
    SndFileSong.Read d song vbuff ilen =
      (false,
        { Decoder := song.Decoder
          mem := writeAt vbuff 0 (List.replicate (toSize ilen) 0)
          trace := [Event.Enter, Event.GetSampleOffset (d.getSampleOffset song.Decoder),
            Event.GetSampleLength (d.getSampleLength song.Decoder),
            Event.Memset 0 (toSize ilen), Event.Leave] }) := by
  simp [SndFileSong.Read, hl, he, Decoder_getSampleOffset, Decoder_getSampleLength, memset,
    CritSec_Enter, CritSec_Leave]

theorem Read_tail_block {ρ σ : Type} (d : SoundDecoder σ) (song : SndFileSong ρ σ)
    (vbuff : List Byte) (ilen : Int)
    (hl : song.m_Looping = false)
    (he : d.getSampleOffset song.Decoder ≠ d.getSampleLength song.Decoder)
    (hw : sizeAdd (d.getSampleOffset song.Decoder) (framesToRead song ilen) >
      d.getSampleLength song.Decoder) :
    SndFileSong.Read d song vbuff ilen =
      (let pos := d.getSampleOffset song.Decoder
       let maxpos := d.getSampleLength song.Decoder
       let req := sizeMul (sizeMul (sizeSub maxpos pos) song.Channels) 2
       let r := d.read song.Decoder req
       let rest := sizeSub (toSize ilen) r.1.length
       (true,
        { Decoder := r.2
          mem := writeAt (writeAt vbuff 0 r.1) r.1.length (List.replicate rest 0)
          trace := [Event.Enter, Event.GetSampleOffset pos, Event.GetSampleLength maxpos,
            Event.SizeSub maxpos pos, Event.DecRead 0 req r.1.length,
            Event.SizeSub (toSize ilen) r.1.length, Event.Memset r.1.length rest,
            Event.Leave] })) := by
  unfold framesToRead at hw
  simp [SndFileSong.Read, hl, he, hw, Decoder_getSampleOffset, Decoder_getSampleLength,
    Decoder_read, subSize, memset, CritSec_Enter, CritSec_Leave]

theorem Read_full {ρ σ : Type} (d : SoundDecoder σ) (song : SndFileSong ρ σ)
    (vbuff : List Byte) (ilen : Int)
    (hl : song.m_Looping = false)
    (he : d.getSampleOffset song.Decoder ≠ d.getSampleLength song.Decoder)
    (hw : ¬ sizeAdd (d.getSampleOffset song.Decoder) (framesToRead song ilen) >
      d.getSampleLength song.Decoder) :
    SndFileSong.Read d song vbuff ilen =
      (let pos := d.getSampleOffset song.Decoder
       let maxpos := d.getSampleLength song.Decoder
       let r := d.read song.Decoder (toSize ilen)
       (!(r.1.length != toSize ilen),
        { Decoder := r.2
          mem := writeAt vbuff 0 r.1
          trace := [Event.Enter, Event.GetSampleOffset pos, Event.GetSampleLength maxpos,
            Event.DecRead 0 (toSize ilen) r.1.length, Event.Leave] })) := by
  unfold framesToRead at hw
  simp [SndFileSong.Read, hl, he, hw, Decoder_getSampleOffset, Decoder_getSampleLength,
    Decoder_read, CritSec_Enter, CritSec_Leave]

theorem Read_loop_wrap {ρ σ : Type} (d : SoundDecoder σ) (song : SndFileSong ρ σ)
    (vbuff : List Byte) (ilen : Int)
    (hl : song.m_Looping = true)
    (hw : sizeAdd (d.getSampleOffset song.Decoder) (framesToRead song ilen) > song.Loop_End) :
    SndFileSong.Read d song vbuff ilen =
      (let pos := d.getSampleOffset song.Decoder
       let endblock := sizeMul (sizeMul (sizeSub song.Loop_End pos) song.Channels) 2
       let r1 := d.read song.Decoder endblock
       let s2 := (d.seek r1.2 song.Loop_Start false).2
       let len2 := sizeSub (toSize ilen) endblock
       let r2 := d.read s2 len2
       (!(r1.1.length != endblock || r2.1.length != len2),
        { Decoder := r2.2
          mem := writeAt (writeAt vbuff 0 r1.1) endblock r2.1
          trace := [Event.Enter, Event.GetSampleOffset pos, Event.SizeSub song.Loop_End pos,
            Event.DecRead 0 endblock r1.1.length, Event.SizeSub (toSize ilen) endblock,
            Event.DecSeek song.Loop_Start false, Event.DecRead endblock len2 r2.1.length,
            Event.Leave] })) := by
  unfold framesToRead at hw
  simp [SndFileSong.Read, hl, hw, Decoder_getSampleOffset, Decoder_read, Decoder_seek, subSize,
    CritSec_Enter, CritSec_Leave]

theorem Read_loop_plain {ρ σ : Type} (d : SoundDecoder σ) (song : SndFileSong ρ σ)
    (vbuff : List Byte) (ilen : Int)
    (hl : song.m_Looping = true)
    (hw : ¬ sizeAdd (d.getSampleOffset song.Decoder) (framesToRead song ilen) > song.Loop_End) :
    SndFileSong.Read d song vbuff ilen =
      (let pos := d.getSampleOffset song.Decoder
       let r := d.read song.Decoder (toSize ilen)
       (!(r.1.length != toSize ilen),
        { Decoder := r.2
          mem := writeAt vbuff 0 r.1
          trace := [Event.Enter, Event.GetSampleOffset pos,
            Event.DecRead 0 (toSize ilen) r.1.length, Event.Leave] })) := by
  unfold framesToRead at hw
  simp [SndFileSong.Read, hl, hw, Decoder_getSampleOffset, Decoder_read,
    CritSec_Enter, CritSec_Leave]

/-! ## Lock balance -/

/-- C8. Lock balance in `SndFileSong::Read`: on every path, the early return
at end of stream included, the call log is `Enter`, then events that are
neither `Enter` nor `Leave`, then `Leave`; so the critical section is entered
once before any decoder access and left once as the last action, and every
decoder call (`getSampleOffset`, `getSampleLength`, `read`, `seek`) lies
between the two. -/
theorem Read_lock_balance {ρ σ : Type} (d : SoundDecoder σ) (song : SndFileSong ρ σ)
    (vbuff : List Byte) (ilen : Int) :
    ∃ mid : List Event,
      (SndFileSong.Read d song vbuff ilen).2.trace = Event.Enter :: mid ++ [Event.Leave] ∧
      Event.Enter ∉ mid ∧ Event.Leave ∉ mid ∧
      (∀ e ∈ (SndFileSong.Read d song vbuff ilen).2.trace, e.isDecoderCall = true → e ∈ mid) := by
  refine ⟨((SndFileSong.Read d song vbuff ilen).2.trace.tail).dropLast, ?_⟩
  cases hl : song.m_Looping
  · by_cases he : d.getSampleOffset song.Decoder = d.getSampleLength song.Decoder
    · rw [Read_eos d song vbuff ilen hl he]
      simp [Event.isDecoderCall]
    · by_cases hw : sizeAdd (d.getSampleOffset song.Decoder) (framesToRead song ilen) >
          d.getSampleLength song.Decoder
      · rw [Read_tail_block d song vbuff ilen hl he hw]
        simp [Event.isDecoderCall]
      · rw [Read_full d song vbuff ilen hl he hw]
        simp [Event.isDecoderCall]
  · by_cases hw : sizeAdd (d.getSampleOffset song.Decoder) (framesToRead song ilen) >
        song.Loop_End
    · rw [Read_loop_wrap d song vbuff ilen hl hw]
      simp [Event.isDecoderCall]
    · rw [Read_loop_plain d song vbuff ilen hl hw]
      simp [Event.isDecoderCall]

/-! ## Buffer lemmas -/

theorem writeAt_zero (buf data : List Byte) :
    writeAt buf 0 data = data ++ buf.drop data.length := by
  simp [writeAt]

theorem writeAt_append (a rest data : List Byte) :
    writeAt (a ++ rest) a.length data = a ++ data ++ rest.drop data.length := by
  simp [writeAt, List.drop_append]

theorem framesToRead_natCast {ρ σ : Type} (song : SndFileSong ρ σ) (n : Nat)
    (hn : n < 2 ^ 31) (hc : song.Channels * 2 < 2 ^ 31) :
    framesToRead song (n : Int) = n / (song.Channels * 2) := by
  unfold framesToRead
  rw [toSize_natCast n (by unfold SIZE_MOD; omega), toSize_channels _ hc]

/-! ## Seamless loop wrap -/

/-- C1. Seamless loop wrap in `SndFileSong::Read`: for a looping song, a buffer
of `n` bytes and a decoder position `pos <= Loop_End` with
`pos + n/(Channels*2) > Loop_End`, if the decoder delivers both requests in
full then `Read` asks for exactly `endblock = (Loop_End - pos)*Channels*2`
bytes at the start of the buffer, seeks to `Loop_Start`, asks for exactly
`n - endblock` bytes at byte offset `endblock` and returns true; the buffer
then holds the bytes of the first read immediately followed by the bytes read
from `Loop_Start` on, `n` bytes in total. -/
theorem Read_loop_wrap_seamless {ρ σ : Type} (d : SoundDecoder σ) (song : SndFileSong ρ σ)
    (vbuff : List Byte) (n : Nat)
    (hl : song.m_Looping = true) (hn : n < 2 ^ 31) (hc : song.Channels * 2 < 2 ^ 31)
    (hpos : d.getSampleOffset song.Decoder ≤ song.Loop_End)
    (hwrap : d.getSampleOffset song.Decoder + n / (song.Channels * 2) > song.Loop_End) :
    let pos := d.getSampleOffset song.Decoder
    let endblock := (song.Loop_End - pos) * song.Channels * 2
    let r1 := d.read song.Decoder endblock
    let s2 := (d.seek r1.2 song.Loop_Start false).2
    let r2 := d.read s2 (n - endblock)
    r1.1.length = endblock → r2.1.length = n - endblock →
      endblock ≤ n ∧
      SndFileSong.Read d song vbuff (n : Int) =
        (true,
          { Decoder := r2.2
            mem := r1.1 ++ r2.1 ++ vbuff.drop n
            trace := [Event.Enter, Event.GetSampleOffset pos, Event.SizeSub song.Loop_End pos,
              Event.DecRead 0 endblock endblock, Event.SizeSub n endblock,
              Event.DecSeek song.Loop_Start false,
              Event.DecRead endblock (n - endblock) (n - endblock), Event.Leave] }) ∧
      (r1.1 ++ r2.1).length = n := by
  intro pos endblock r1 s2 r2 h1 h2
  have hLE := song.Loop_End_lt
  have hfit : (song.Loop_End - pos) * song.Channels * 2 + song.Channels * 2 ≤ n :=
    frames_fit _ _ _ (by omega)
  have hsz : toSize (n : Int) = n := toSize_natCast n (by unfold SIZE_MOD; omega)
  have hw : sizeAdd (d.getSampleOffset song.Decoder) (framesToRead song (n : Int)) >
      song.Loop_End := by
    rw [framesToRead_natCast song n hn hc, sizeAdd_of_lt]
    · exact hwrap
    · have : n / (song.Channels * 2) ≤ n := Nat.div_le_self _ _
      unfold SIZE_MOD UINT32_MOD at *
      omega
  have hsub : sizeSub song.Loop_End (d.getSampleOffset song.Decoder) = song.Loop_End - pos :=
    sizeSub_of_le _ _ hpos (by unfold SIZE_MOD UINT32_MOD at *; omega)
  have hm1 : sizeMul (song.Loop_End - pos) song.Channels = (song.Loop_End - pos) * song.Channels :=
    sizeMul_of_lt _ _ (by unfold SIZE_MOD; omega)
  have hm2 : sizeMul ((song.Loop_End - pos) * song.Channels) 2 = endblock :=
    sizeMul_of_lt _ _ (by unfold SIZE_MOD; omega)
  have hle : endblock ≤ n := by omega
  have hs2 : sizeSub n endblock = n - endblock :=
    sizeSub_of_le _ _ hle (by unfold SIZE_MOD; omega)
  refine ⟨hle, ?_, ?_⟩
  · rw [Read_loop_wrap d song vbuff n hl hw]
    simp only [hsub, hm1, hm2, hsz, hs2]
    show (!(r1.1.length != endblock || r2.1.length != n - endblock),
        ({ Decoder := r2.2
           mem := writeAt (writeAt vbuff 0 r1.1) endblock r2.1
           trace := [Event.Enter, Event.GetSampleOffset pos, Event.SizeSub song.Loop_End pos,
             Event.DecRead 0 endblock r1.1.length, Event.SizeSub n endblock,
             Event.DecSeek song.Loop_Start false,
             Event.DecRead endblock (n - endblock) r2.1.length, Event.Leave] } : World σ)) = _
    have hmem : writeAt (writeAt vbuff 0 r1.1) endblock r2.1 = r1.1 ++ r2.1 ++ vbuff.drop n := by
      rw [writeAt_zero, ← h1, writeAt_append, List.drop_drop, h2, h1]
      congr 2
      omega
    rw [hmem, h1, h2]
    simp
  · simp [h1, h2]; omega

/-- C1, witness: five frames before `Loop_End`, a buffer of 32 bytes. -/
theorem Read_loop_wrap_seamless_witness :
    SndFileSong.Read demoDecoder demoLoopSong (List.replicate 32 7) ((32 : Nat) : Int) =
      (true,
        { Decoder := 3
          mem := [124, 125, 126, 127, 128, 129, 130, 131, 132, 133, 134, 135, 136, 137, 138, 139,
            140, 141, 142, 143, 0, 1, 2, 3, 4, 5, 6, 7, 8, 9, 10, 11]
          trace := [Event.Enter, Event.GetSampleOffset 95, Event.SizeSub 100 95,
            Event.DecRead 0 20 20, Event.SizeSub 32 20, Event.DecSeek 0 false,
            Event.DecRead 20 12 12, Event.Leave] }) :=
  (Read_loop_wrap_seamless demoDecoder demoLoopSong (List.replicate 32 7) 32
    rfl (by decide) (by decide) (by decide) (by decide) (by decide) (by decide)).2.1

/-! ## End of stream -/

/-- C2. End of stream in `SndFileSong::Read`: for a song that is not looping
and a buffer of `n` bytes, if the decoder position equals the sample length
then `Read` makes no decoder read and no seek (the decoder state is left as it
was), sets all `n` bytes of the buffer to zero and returns false. -/
theorem Read_end_of_stream {ρ σ : Type} (d : SoundDecoder σ) (song : SndFileSong ρ σ)
    (vbuff : List Byte) (n : Nat)
    (hl : song.m_Looping = false) (hn : n < 2 ^ 31)
    (he : d.getSampleOffset song.Decoder = d.getSampleLength song.Decoder) :
    let r := SndFileSong.Read d song vbuff (n : Int)
    r.1 = false ∧
    r.2.trace = [Event.Enter, Event.GetSampleOffset (d.getSampleOffset song.Decoder),
      Event.GetSampleLength (d.getSampleLength song.Decoder), Event.Memset 0 n, Event.Leave] ∧
    (∀ off req got, Event.DecRead off req got ∉ r.2.trace) ∧
    (∀ pos ms, Event.DecSeek pos ms ∉ r.2.trace) ∧
    r.2.Decoder = song.Decoder ∧
    r.2.mem = List.replicate n 0 ++ vbuff.drop n ∧
    (∀ i, i < n → r.2.mem[i]? = some 0) := by
  intro r
  have hsz : toSize (n : Int) = n := toSize_natCast n (by unfold SIZE_MOD; omega)
  have hr : r = _ := Read_eos d song vbuff n hl he
  rw [hsz] at hr
  rw [hr]
  refine ⟨rfl, rfl, by simp, by simp, rfl, by simp [writeAt_zero], ?_⟩
  intro i hi
  simp [writeAt_zero, List.getElem?_append_left, hi]

/-- C2, witness: at the end of a stream of 100 frames, a buffer of 32 bytes. -/
theorem Read_end_of_stream_witness :
    (SndFileSong.Read demoDecoder demoEndSong (List.replicate 32 7) ((32 : Nat) : Int)).1 = false ∧
    (SndFileSong.Read demoDecoder demoEndSong (List.replicate 32 7) ((32 : Nat) : Int)).2.mem =
      List.replicate 32 0 :=
  have h := Read_end_of_stream demoDecoder demoEndSong (List.replicate 32 7) 32 rfl
    (by decide) (by decide)
  ⟨h.1, h.2.2.2.2.2.1⟩

/-! ## Final partial buffer -/

/-- C3. Final partial buffer in `SndFileSong::Read`: for a song that is not
looping and a decoder position `pos < maxpos` with
`pos + n/(Channels*2) > maxpos`, the comparison being the one the code makes
on `size_t` values, `Read` asks the decoder for exactly
`(maxpos - pos)*Channels*2` bytes; if the decoder returns `got` bytes, at most
the requested count, then bytes `[got, n)` of the buffer are zero and `Read`
returns true whatever `got` is, so each of the `n` bytes is decoded data or
zero. -/
theorem Read_final_block {ρ σ : Type} (d : SoundDecoder σ) (song : SndFileSong ρ σ)
    (vbuff : List Byte) (n : Nat)
    (hl : song.m_Looping = false) (hn : n < 2 ^ 31) (hc : song.Channels * 2 < 2 ^ 31)
    (hlt : d.getSampleOffset song.Decoder < d.getSampleLength song.Decoder)
    (hover : sizeAdd (d.getSampleOffset song.Decoder) (n / (song.Channels * 2)) >
      d.getSampleLength song.Decoder) :
    let pos := d.getSampleOffset song.Decoder
    let maxpos := d.getSampleLength song.Decoder
    let req := (maxpos - pos) * song.Channels * 2
    let r := d.read song.Decoder req
    let got := r.1.length
    got ≤ req →
      req ≤ n ∧
      SndFileSong.Read d song vbuff (n : Int) =
        (true,
          { Decoder := r.2
            mem := r.1 ++ List.replicate (n - got) 0 ++ vbuff.drop n
            trace := [Event.Enter, Event.GetSampleOffset pos, Event.GetSampleLength maxpos,
              Event.SizeSub maxpos pos, Event.DecRead 0 req got, Event.SizeSub n got,
              Event.Memset got (n - got), Event.Leave] }) ∧
      (∀ i, got ≤ i → i < n →
        (SndFileSong.Read d song vbuff (n : Int)).2.mem[i]? = some 0) := by
  intro pos maxpos req r got hgot
  have hmax := d.getSampleLength_lt song.Decoder
  have hdiv : n / (song.Channels * 2) ≤ n := Nat.div_le_self _ _
  have hmath := sizeAdd_gt_imp _ _ _ (by omega) (Nat.le_of_lt hlt) hmax hover
  have hfit : (maxpos - pos) * song.Channels * 2 + song.Channels * 2 ≤ n :=
    frames_fit _ _ _ (by omega)
  have hsz : toSize (n : Int) = n := toSize_natCast n (by unfold SIZE_MOD; omega)
  have hw : sizeAdd (d.getSampleOffset song.Decoder) (framesToRead song (n : Int)) >
      d.getSampleLength song.Decoder := by
    rw [framesToRead_natCast song n hn hc]
    exact hover
  have hsub : sizeSub (d.getSampleLength song.Decoder) (d.getSampleOffset song.Decoder) =
      maxpos - pos := sizeSub_of_le _ _ (Nat.le_of_lt hlt) hmax
  have hm1 : sizeMul (maxpos - pos) song.Channels = (maxpos - pos) * song.Channels :=
    sizeMul_of_lt _ _ (by unfold SIZE_MOD; omega)
  have hm2 : sizeMul ((maxpos - pos) * song.Channels) 2 = req :=
    sizeMul_of_lt _ _ (by unfold SIZE_MOD; omega)
  have hle : req ≤ n := by omega
  have hs2 : sizeSub n got = n - got :=
    sizeSub_of_le _ _ (by omega) (by unfold SIZE_MOD; omega)
  have hmem : writeAt (writeAt vbuff 0 r.1) got (List.replicate (n - got) 0) =
      r.1 ++ List.replicate (n - got) 0 ++ vbuff.drop n := by
    rw [writeAt_zero, writeAt_append, List.drop_drop, List.length_replicate]
    congr 2
    omega
  have hread : SndFileSong.Read d song vbuff (n : Int) =
      (true,
        { Decoder := r.2
          mem := r.1 ++ List.replicate (n - got) 0 ++ vbuff.drop n
          trace := [Event.Enter, Event.GetSampleOffset pos, Event.GetSampleLength maxpos,
            Event.SizeSub maxpos pos, Event.DecRead 0 req got, Event.SizeSub n got,
            Event.Memset got (n - got), Event.Leave] }) := by
    rw [Read_tail_block d song vbuff n hl (Nat.ne_of_lt hlt) hw]
    simp only [hsub, hm1, hm2, hsz]
    show (true,
        ({ Decoder := r.2
           mem := writeAt (writeAt vbuff 0 r.1) got (List.replicate (sizeSub n got) 0)
           trace := [Event.Enter, Event.GetSampleOffset pos, Event.GetSampleLength maxpos,
             Event.SizeSub maxpos pos, Event.DecRead 0 req got, Event.SizeSub n got,
             Event.Memset got (sizeSub n got), Event.Leave] } : World σ)) = _
    rw [hs2, hmem]
  refine ⟨hle, hread, ?_⟩
  intro i hi1 hi2
  rw [hread]
  show (r.1 ++ List.replicate (n - got) 0 ++ vbuff.drop n)[i]? = some 0
  rw [List.append_assoc, List.getElem?_append_right hi1, List.getElem?_append_left]
  · rw [List.getElem?_replicate]
    simp
    omega
  · simp
    omega

/-- C3, witness: five frames before the end of the stream, a buffer of 32 bytes. -/
theorem Read_final_block_witness :
    SndFileSong.Read demoDecoder demoOnceSong (List.replicate 32 7) ((32 : Nat) : Int) =
      (true,
        { Decoder := 100
          mem := [124, 125, 126, 127, 128, 129, 130, 131, 132, 133, 134, 135, 136, 137, 138, 139,
            140, 141, 142, 143, 0, 0, 0, 0, 0, 0, 0, 0, 0, 0, 0, 0]
          trace := [Event.Enter, Event.GetSampleOffset 95, Event.GetSampleLength 100,
            Event.SizeSub 100 95, Event.DecRead 0 20 20, Event.SizeSub 32 20,
            Event.Memset 20 12, Event.Leave] }) :=
  (Read_final_block demoDecoder demoOnceSong (List.replicate 32 7) 32
    rfl (by decide) (by decide) (by decide) (by decide) (by decide)).2.1

/-! ## Short-read reporting -/

/-- C4. Short-read reporting in `SndFileSong::Read`: for a call that makes
only full-length requests (not looping with `pos + n/(Channels*2) <= maxpos`
and `pos != maxpos`, or looping with `pos <= Loop_End`), `Read` returns true
if and only if every decoder read of the call returned exactly the number of
bytes requested; in particular, when looping, a short read of the block before
`Loop_End` makes `Read` return false, whatever the read after the seek to
`Loop_Start` returns. -/
theorem Read_reports_short_reads {ρ σ : Type} (d : SoundDecoder σ) (song : SndFileSong ρ σ)
    (vbuff : List Byte) (n : Nat)
    (hn : n < 2 ^ 31) (hc : song.Channels * 2 < 2 ^ 31)
    (hcase :
      (song.m_Looping = false ∧
        d.getSampleOffset song.Decoder + n / (song.Channels * 2) ≤
          d.getSampleLength song.Decoder ∧
        d.getSampleOffset song.Decoder ≠ d.getSampleLength song.Decoder) ∨
      (song.m_Looping = true ∧ d.getSampleOffset song.Decoder ≤ song.Loop_End)) :
    let r := SndFileSong.Read d song vbuff (n : Int)
    let pos := d.getSampleOffset song.Decoder
    let endblock := (song.Loop_End - pos) * song.Channels * 2
    (r.1 = true ↔ ∀ off req got, Event.DecRead off req got ∈ r.2.trace → got = req) ∧
    (song.m_Looping = true → pos + n / (song.Channels * 2) > song.Loop_End →
      (d.read song.Decoder endblock).1.length ≠ endblock → r.1 = false) := by
  intro r pos endblock
  have hLE := song.Loop_End_lt
  have hmax := d.getSampleLength_lt song.Decoder
  have hsz : toSize (n : Int) = n := toSize_natCast n (by unfold SIZE_MOD; omega)
  have hdiv : n / (song.Channels * 2) ≤ n := Nat.div_le_self _ _
  rcases hcase with ⟨hl, hle, hne⟩ | ⟨hl, hle⟩
  · have hw : ¬ sizeAdd (d.getSampleOffset song.Decoder) (framesToRead song (n : Int)) >
        d.getSampleLength song.Decoder := by
      rw [framesToRead_natCast song n hn hc, sizeAdd_of_lt _ _ (by omega)]
      omega
    have hr : r = _ := Read_full d song vbuff n hl hne hw
    rw [hsz] at hr
    rw [hr]
    simp only [hl]
    constructor
    · simp
      constructor
      · rintro h off req got - rfl rfl
        exact h
      · intro h
        exact h 0 n _ rfl rfl rfl
    · intro h
      cases h
  · by_cases hwrap : pos + n / (song.Channels * 2) > song.Loop_End
    · have hfit : (song.Loop_End - pos) * song.Channels * 2 + song.Channels * 2 ≤ n :=
        frames_fit _ _ _ (by omega)
      have hw : sizeAdd (d.getSampleOffset song.Decoder) (framesToRead song (n : Int)) >
          song.Loop_End := by
        rw [framesToRead_natCast song n hn hc,
          sizeAdd_of_lt _ _ (by unfold SIZE_MOD UINT32_MOD at *; omega)]
        exact hwrap
      have hsub : sizeSub song.Loop_End (d.getSampleOffset song.Decoder) = song.Loop_End - pos :=
        sizeSub_of_le _ _ hle (by unfold SIZE_MOD UINT32_MOD at *; omega)
      have hm1 : sizeMul (song.Loop_End - pos) song.Channels =
          (song.Loop_End - pos) * song.Channels :=
        sizeMul_of_lt _ _ (by unfold SIZE_MOD; omega)
      have hm2 : sizeMul ((song.Loop_End - pos) * song.Channels) 2 = endblock :=
        sizeMul_of_lt _ _ (by unfold SIZE_MOD; omega)
      have hs2 : sizeSub n endblock = n - endblock :=
        sizeSub_of_le _ _ (by omega) (by unfold SIZE_MOD; omega)
      have hr : r = _ := Read_loop_wrap d song vbuff n hl hw
      simp only [hsub, hm1, hm2, hsz, hs2] at hr
      rw [hr]
      have hle2 : endblock ≤ n := by omega
      simp only [hl]
      constructor
      · simp
        constructor
        · rintro ⟨h1, h2⟩ off req got (⟨-, rfl, rfl⟩ | ⟨-, rfl, rfl⟩)
          · exact h1
          · exact h2
        · intro h
          exact ⟨h 0 _ _ (Or.inl ⟨rfl, rfl, rfl⟩), h endblock _ _ (Or.inr ⟨rfl, rfl, rfl⟩)⟩
      · intro _ _ h
        simp [h]
    · have hw : ¬ sizeAdd (d.getSampleOffset song.Decoder) (framesToRead song (n : Int)) >
          song.Loop_End := by
        rw [framesToRead_natCast song n hn hc,
          sizeAdd_of_lt _ _ (by unfold SIZE_MOD UINT32_MOD at *; omega)]
        exact hwrap
      have hr : r = _ := Read_loop_plain d song vbuff n hl hw
      rw [hsz] at hr
      rw [hr]
      simp only [hl]
      constructor
      · simp
        constructor
        · rintro h off req got - rfl rfl
          exact h
        · intro h
          exact h 0 n _ rfl rfl rfl
      · intro _ h
        exact absurd h hwrap

/-- C4, witness: a decoder that hands out 16 bytes per call makes the read
before `Loop_End` short; the read after the seek is complete. -/
theorem Read_reports_short_reads_witness :
    (SndFileSong.Read chunkedDecoder demoLoopSong (List.replicate 32 7) ((32 : Nat) : Int)).1 =
      false :=
  (Read_reports_short_reads chunkedDecoder demoLoopSong (List.replicate 32 7) 32
    (by decide) (by decide) (Or.inr ⟨rfl, by decide⟩)).2 rfl (by decide) (by decide)

/-! ## Buffer bounds -/

/-- C9. Buffer bounds in `SndFileSong::Read`: for a song with `Channels` in
`{1, 2}`, a buffer of `n >= 0` bytes, a decoder position `pos <= maxpos` (not
looping) or `pos <= Loop_End` (looping) and a decoder that never returns more
bytes than requested, every decoder read and every zero-fill of the call
targets a byte range inside `[0, n)`, no `size_t` subtraction wraps, and the
bytes requested from the decoder add up to at most `n`, exactly `n` when
looping. -/
theorem Read_buffer_bounds {ρ σ : Type} (d : SoundDecoder σ) (song : SndFileSong ρ σ)
    (vbuff : List Byte) (n : Nat)
    (hch : song.Channels = 1 ∨ song.Channels = 2) (hn : n < 2 ^ 31)
    (hpos :
      (song.m_Looping = false ∧
        d.getSampleOffset song.Decoder ≤ d.getSampleLength song.Decoder) ∨
      (song.m_Looping = true ∧ d.getSampleOffset song.Decoder ≤ song.Loop_End))
    (hdec : ∀ s k, (d.read s k).1.length ≤ k) :
    let tr := (SndFileSong.Read d song vbuff (n : Int)).2.trace
    (∀ e ∈ tr, e.InBounds n) ∧
    requestedBytes tr ≤ n ∧
    (song.m_Looping = true → requestedBytes tr = n) := by
  intro tr
  have hc : song.Channels * 2 < 2 ^ 31 := by rcases hch with h | h <;> omega
  have hLE := song.Loop_End_lt
  have hmax := d.getSampleLength_lt song.Decoder
  have hsz : toSize (n : Int) = n := toSize_natCast n (by unfold SIZE_MOD; omega)
  have hdiv : n / (song.Channels * 2) ≤ n := Nat.div_le_self _ _
  have hftr := framesToRead_natCast song n hn hc
  rcases hpos with ⟨hl, hle⟩ | ⟨hl, hle⟩
  · by_cases he : d.getSampleOffset song.Decoder = d.getSampleLength song.Decoder
    · have hr : tr = _ := congrArg (fun r => r.2.trace) (Read_eos d song vbuff n hl he)
      rw [hsz] at hr
      rw [hr]
      simp [Event.InBounds, requestedBytes, hl]
    · by_cases hw : sizeAdd (d.getSampleOffset song.Decoder) (framesToRead song (n : Int)) >
          d.getSampleLength song.Decoder
      · have hgt := sizeAdd_gt_imp _ _ _ (by rw [hftr]; omega) hle hmax hw
        rw [hftr] at hgt
        have hfit : (d.getSampleLength song.Decoder - d.getSampleOffset song.Decoder) *
            song.Channels * 2 + song.Channels * 2 ≤ n :=
          frames_fit _ _ _ (by omega)
        have hsub : sizeSub (d.getSampleLength song.Decoder) (d.getSampleOffset song.Decoder) =
            d.getSampleLength song.Decoder - d.getSampleOffset song.Decoder :=
          sizeSub_of_le _ _ hle hmax
        have hm1 := sizeMul_of_lt
          (d.getSampleLength song.Decoder - d.getSampleOffset song.Decoder) song.Channels
          (by unfold SIZE_MOD; omega)
        have hm2 := sizeMul_of_lt
          ((d.getSampleLength song.Decoder - d.getSampleOffset song.Decoder) * song.Channels) 2
          (by unfold SIZE_MOD; omega)
        have hgot := hdec song.Decoder ((d.getSampleLength song.Decoder -
          d.getSampleOffset song.Decoder) * song.Channels * 2)
        have hs2 := sizeSub_of_le n _ (Nat.le_trans hgot (by omega : _ ≤ n))
          (by unfold SIZE_MOD; omega)
        have hr : tr = _ := congrArg (fun r => r.2.trace) (Read_tail_block d song vbuff n hl he hw)
        simp only [hsub, hm1, hm2, hsz, hs2] at hr
        rw [hr]
        simp only [List.mem_cons, List.mem_nil_iff, or_false, requestedBytes, hl]
        refine ⟨?_, by omega, by simp⟩
        rintro e (rfl | rfl | rfl | rfl | rfl | rfl | rfl | rfl) <;>
          simp only [Event.InBounds] <;> first | trivial | omega
      · have hr : tr = _ := congrArg (fun r => r.2.trace) (Read_full d song vbuff n hl he hw)
        rw [hsz] at hr
        rw [hr]
        simp [Event.InBounds, requestedBytes, hl]
  · by_cases hw : sizeAdd (d.getSampleOffset song.Decoder) (framesToRead song (n : Int)) >
        song.Loop_End
    · have hgt := sizeAdd_gt_imp _ _ _ (by rw [hftr]; omega) hle
        (by unfold SIZE_MOD UINT32_MOD at *; omega) hw
      rw [hftr] at hgt
      have hfit : (song.Loop_End - d.getSampleOffset song.Decoder) *
          song.Channels * 2 + song.Channels * 2 ≤ n :=
        frames_fit _ _ _ (by omega)
      have hsub : sizeSub song.Loop_End (d.getSampleOffset song.Decoder) =
          song.Loop_End - d.getSampleOffset song.Decoder :=
        sizeSub_of_le _ _ hle (by unfold SIZE_MOD UINT32_MOD at *; omega)
      have hm1 := sizeMul_of_lt
        (song.Loop_End - d.getSampleOffset song.Decoder) song.Channels
        (by unfold SIZE_MOD; omega)
      have hm2 := sizeMul_of_lt
        ((song.Loop_End - d.getSampleOffset song.Decoder) * song.Channels) 2
        (by unfold SIZE_MOD; omega)
      have hs2 := sizeSub_of_le n
        ((song.Loop_End - d.getSampleOffset song.Decoder) * song.Channels * 2)
        (by omega) (by unfold SIZE_MOD; omega)
      have hr : tr = _ := congrArg (fun r => r.2.trace) (Read_loop_wrap d song vbuff n hl hw)
      simp only [hsub, hm1, hm2, hsz, hs2] at hr
      rw [hr]
      simp only [List.mem_cons, List.mem_nil_iff, or_false, requestedBytes]
      refine ⟨?_, by omega, fun _ => by omega⟩
      rintro e (rfl | rfl | rfl | rfl | rfl | rfl | rfl | rfl) <;>
        simp only [Event.InBounds] <;> first | trivial | omega
    · have hr : tr = _ := congrArg (fun r => r.2.trace) (Read_loop_plain d song vbuff n hl hw)
      rw [hsz] at hr
      rw [hr]
      simp [Event.InBounds, requestedBytes]

/-- C9, witness: the chunked decoder never returns more than requested. -/
theorem Read_buffer_bounds_witness :
    (∀ e ∈ (SndFileSong.Read chunkedDecoder demoLoopSong (List.replicate 32 7)
        ((32 : Nat) : Int)).2.trace, e.InBounds 32) ∧
    requestedBytes (SndFileSong.Read chunkedDecoder demoLoopSong (List.replicate 32 7)
        ((32 : Nat) : Int)).2.trace = 32 :=
  have h := Read_buffer_bounds chunkedDecoder demoLoopSong (List.replicate 32 7) 32
    (Or.inr rfl) (by decide) (Or.inr ⟨rfl, by decide⟩)
    (fun s k => by
      show (pcmRead 2 100 16 s k).1.length ≤ k
      simp only [pcmRead, List.length_map, List.length_range]
      exact Nat.le_trans (Nat.min_le_left _ _)
        (Nat.le_trans (Nat.min_le_left _ _) (Nat.mod_le _ _)))
  ⟨h.1, h.2.2 rfl⟩

/-! ## Loop region -/

/-- C10, evaluation. A stream of `2^32 + 10` frames gets `Loop_Start = 0` and
`Loop_End = 10` from the constructor.  Looping from frame 0 with a buffer of
32768 bytes, both reads are delivered in full and `Read` returns true, but the
decoder ends at frame 8182, beyond `Loop_End`: the frames left after the wrap
are read in one piece, without a second wrap. -/
theorem Read_leaves_loop_region :
    longLoopSong.m_Looping = true ∧
    longLoopSong.Loop_Start ≤ longLoopSong.Loop_End ∧
    longLoopSong.Loop_End ≤ longDecoder.getSampleLength longLoopSong.Decoder ∧
    longLoopSong.Loop_End = 10 ∧
    longDecoder.getSampleOffset longLoopSong.Decoder = 0 ∧
    (SndFileSong.Read longDecoder longLoopSong (List.replicate 32768 0) 32768).1 = true ∧
    (SndFileSong.Read longDecoder longLoopSong (List.replicate 32768 0) 32768).2.trace =
      [Event.Enter, Event.GetSampleOffset 0, Event.SizeSub 10 0, Event.DecRead 0 40 40,
        Event.SizeSub 32768 40, Event.DecSeek 0 false, Event.DecRead 40 32728 32728,
        Event.Leave] ∧
    longDecoder.getSampleOffset
      (SndFileSong.Read longDecoder longLoopSong (List.replicate 32768 0) 32768).2.Decoder =
        8182 := by
  have hw : sizeAdd (longDecoder.getSampleOffset longLoopSong.Decoder)
      (framesToRead longLoopSong 32768) > longLoopSong.Loop_End := by decide
  have he : sizeMul (sizeMul (sizeSub longLoopSong.Loop_End
      (longDecoder.getSampleOffset longLoopSong.Decoder)) longLoopSong.Channels) 2 = 40 := by
    decide
  have hs : sizeSub (toSize 32768) 40 = 32728 := by decide
  have hl1 : (longDecoder.read longLoopSong.Decoder 40).1.length = 40 := by
    show (pcmRead 2 (2 ^ 32 + 10) SIZE_MOD 0 40).1.length = 40
    simp only [pcmRead, List.length_map, List.length_range]
    decide
  have hs1 : (longDecoder.read longLoopSong.Decoder 40).2 = 10 := by decide
  have hk : (longDecoder.seek 10 longLoopSong.Loop_Start false).2 = 0 := by decide
  have hl2 : (longDecoder.read 0 32728).1.length = 32728 := by
    show (pcmRead 2 (2 ^ 32 + 10) SIZE_MOD 0 32728).1.length = 32728
    simp only [pcmRead, List.length_map, List.length_range]
    decide
  have hs2 : (longDecoder.read 0 32728).2 = 8182 := by decide
  rw [Read_loop_wrap longDecoder longLoopSong _ 32768 rfl hw]
  simp only [he, hs, hl1, hs1, hk, hl2, hs2]
  refine ⟨rfl, by decide, by decide, by decide, by decide, by decide, ?_, by decide⟩
  rfl

/-! ## Playback position -/

theorem toInt_of_lt (x : Nat) (h : x < 2 ^ 31) : toInt x = x := by
  unfold toInt INT_MOD
  omega

/-- C5. Playback-position reporting in `SndFileSong::GetStats`: for a decoder
sample offset `pos` and a `SampleRate > 0` with `pos / SampleRate`
representable as an `int`, the minutes `m` and seconds `s` passed to the format
string satisfy `m*60 + s = floor(pos / SampleRate)` and `0 <= s < 60`. -/
theorem GetStats_time {ρ σ : Type} (d : SoundDecoder σ) (song : SndFileSong ρ σ)
    (hrate : 0 < song.SampleRate) (hint : song.SampleRate < 2 ^ 31)
    (hrep : (d.getSampleOffset song.Decoder : Int) / song.SampleRate < 2 ^ 31) :
    let a := SndFileSong.GetStats d song
    a.minutes * 60 + a.seconds =
        ⌊((d.getSampleOffset song.Decoder : ℚ)) / (song.SampleRate : ℚ)⌋ ∧
    a.minutes * 60 + a.seconds = (d.getSampleOffset song.Decoder : Int) / song.SampleRate ∧
    0 ≤ a.seconds ∧ a.seconds < 60 := by
  intro a
  obtain ⟨r, hr⟩ : ∃ r : Nat, song.SampleRate = (r : Int) :=
    ⟨song.SampleRate.toNat, (Int.toNat_of_nonneg (le_of_lt hrate)).symm⟩
  have hr0 : 0 < r := by omega
  have hsz : toSize song.SampleRate = r := by
    rw [hr]
    exact toSize_natCast r (by unfold SIZE_MOD; omega)
  have hq : (d.getSampleOffset song.Decoder : Int) / song.SampleRate =
      ((d.getSampleOffset song.Decoder / r : Nat) : Int) := by
    rw [hr]
    exact (Int.natCast_div _ _).symm
  have hlt : d.getSampleOffset song.Decoder / r < 2 ^ 31 := by
    rw [hq] at hrep
    exact_mod_cast hrep
  have htime : toInt (d.getSampleOffset song.Decoder / toSize song.SampleRate) =
      ((d.getSampleOffset song.Decoder / r : Nat) : Int) := by
    rw [hsz]
    exact toInt_of_lt _ hlt
  have hmin : a.minutes = Int.tdiv ((d.getSampleOffset song.Decoder / r : Nat) : Int) 60 := by
    simp only [a, SndFileSong.GetStats, htime]
  have hsec : a.seconds = Int.tmod ((d.getSampleOffset song.Decoder / r : Nat) : Int) 60 := by
    simp only [a, SndFileSong.GetStats, htime]
  have hsum : a.minutes * 60 + a.seconds =
      ((d.getSampleOffset song.Decoder / r : Nat) : Int) := by
    rw [hmin, hsec]
    have := Int.tdiv_add_tmod ((d.getSampleOffset song.Decoder / r : Nat) : Int) 60
    omega
  refine ⟨?_, ?_, ?_, ?_⟩
  · rw [hsum, hr]
    exact (Rat.floor_natCast_div_natCast _ _).symm
  · rw [hsum, hq]
  · rw [hsec]
    exact Int.tmod_nonneg _ (Int.ofNat_nonneg _)
  · rw [hsec]
    exact Int.tmod_lt_of_pos _ (by decide)

/-- C5, witness: frame five million at 44100 Hz is 1 minute 53 seconds. -/
theorem GetStats_time_witness :
    (SndFileSong.GetStats statsDecoder statsSong).minutes = 1 ∧
    (SndFileSong.GetStats statsDecoder statsSong).seconds = 53 ∧
    (SndFileSong.GetStats statsDecoder statsSong).minutes * 60 +
      (SndFileSong.GetStats statsDecoder statsSong).seconds =
      ((statsDecoder.getSampleOffset statsSong.Decoder : Nat) : Int) / statsSong.SampleRate :=
  ⟨by decide, by decide,
    (GetStats_time statsDecoder statsSong (by decide) (by decide) (by decide)).2.1⟩

/-! ## Opening a song -/

/-- The reader that `SndFile_OpenSong` hands to the decoder factory. -/
theorem OpenSong_probed {ρ σ : Type} (frOps : FileReader ρ) (d : SoundDecoder σ)
    (CreateDecoder : ρ → Option σ × ρ) (signature0 : List Byte) (fr : ρ) :
    (SndFile_OpenSong frOps d CreateDecoder signature0 fr).probed =
      frOps.Seek (frOps.Read (frOps.Seek fr 0 SEEK_SET) 4).2 0 SEEK_SET := by
  simp only [SndFile_OpenSong]
  split <;> rfl

theorem OpenSong_none {ρ σ : Type} (frOps : FileReader ρ) (d : SoundDecoder σ)
    (CreateDecoder : ρ → Option σ × ρ) (signature0 : List Byte) (fr : ρ)
    (hcd : (CreateDecoder (frOps.Seek (frOps.Read (frOps.Seek fr 0 SEEK_SET) 4).2 0 SEEK_SET)).1 =
      none) :
    (SndFile_OpenSong frOps d CreateDecoder signature0 fr).song = none ∧
    (SndFile_OpenSong frOps d CreateDecoder signature0 fr).log =
      [OpenEvent.FrSeek 0 SEEK_SET, OpenEvent.FrRead 4, OpenEvent.FrSeek 0 SEEK_SET,
        OpenEvent.CreateDecoder] := by
  simp only [SndFile_OpenSong]
  split
  · exact ⟨rfl, rfl⟩
  · rename_i dec h
    rw [hcd] at h
    cases h

theorem OpenSong_some {ρ σ : Type} (frOps : FileReader ρ) (d : SoundDecoder σ)
    (CreateDecoder : ρ → Option σ × ρ) (signature0 : List Byte) (fr : ρ) (decoder : σ)
    (hcd : (CreateDecoder (frOps.Seek (frOps.Read (frOps.Seek fr 0 SEEK_SET) 4).2 0 SEEK_SET)).1 =
      some decoder) :
    (SndFile_OpenSong frOps d CreateDecoder signature0 fr).song =
      some (SndFileSong.ctor d
        (CreateDecoder (frOps.Seek (frOps.Read (frOps.Seek fr 0 SEEK_SET) 4).2 0 SEEK_SET)).2
        decoder 0 (UINT32_MOD - 1) (by decide) (by decide)) ∧
    (SndFile_OpenSong frOps d CreateDecoder signature0 fr).log =
      [OpenEvent.FrSeek 0 SEEK_SET, OpenEvent.FrRead 4, OpenEvent.FrSeek 0 SEEK_SET,
        OpenEvent.CreateDecoder, OpenEvent.NewSong] := by
  simp only [SndFile_OpenSong]
  split
  · rename_i h
    rw [hcd] at h
    cases h
  · rename_i dec h
    rw [hcd] at h
    cases h
    refine ⟨?_, rfl⟩
    simp only [ite_self]

/-- C7. `SndFile_OpenSong` returns no song if and only if the decoder factory
returns no decoder for the file; when a decoder is created the returned song
owns that decoder and the file reader; in both cases the reader was sought
back to offset 0 (by `Seek(0, SEEK_SET)`, the last reader call before the
factory) when the decoder factory is called. -/
theorem OpenSong_result {ρ σ : Type} (frOps : FileReader ρ) (d : SoundDecoder σ)
    (CreateDecoder : ρ → Option σ × ρ) (signature0 : List Byte) (fr : ρ)
    (hseek : ∀ r, frOps.Tell (frOps.Seek r 0 SEEK_SET) = 0) :
    let r := SndFile_OpenSong frOps d CreateDecoder signature0 fr
    (r.song = none ↔ (CreateDecoder r.probed).1 = none) ∧
    (∀ decoder, (CreateDecoder r.probed).1 = some decoder →
      ∃ song, r.song = some song ∧ song.Decoder = decoder ∧
        song.Reader = (CreateDecoder r.probed).2) ∧
    r.probed = frOps.Seek (frOps.Read (frOps.Seek fr 0 SEEK_SET) 4).2 0 SEEK_SET ∧
    frOps.Tell r.probed = 0 ∧
    r.log.take 4 = [OpenEvent.FrSeek 0 SEEK_SET, OpenEvent.FrRead 4,
      OpenEvent.FrSeek 0 SEEK_SET, OpenEvent.CreateDecoder] := by
  intro r
  have hp : r.probed = _ := OpenSong_probed frOps d CreateDecoder signature0 fr
  rw [hp]
  cases hcd : (CreateDecoder
      (frOps.Seek (frOps.Read (frOps.Seek fr 0 SEEK_SET) 4).2 0 SEEK_SET)).1 with
  | none =>
    have hn := OpenSong_none frOps d CreateDecoder signature0 fr hcd
    refine ⟨by simp [r, hn.1], ?_, rfl, hseek _, by simp [r, hn.2]⟩
    intro decoder hd
    cases hd
  | some decoder =>
    have hs := OpenSong_some frOps d CreateDecoder signature0 fr decoder hcd
    refine ⟨by simp [r, hs.1], ?_, rfl, hseek _, by simp [r, hs.2]⟩
    intro dec hd
    cases hd
    exact ⟨_, hs.1, rfl, rfl⟩

/-- C7, witness: the in-memory reader obeys the seek law; an accepted and a
rejected file. -/
theorem OpenSong_result_witness :
    (SndFile_OpenSong memReader demoDecoder memCreateDecoder [9, 9, 9, 9] oggFile).probed =
      MemFile.mk oggFile.data 0 ∧
    (SndFile_OpenSong memReader demoDecoder memCreateDecoder [9, 9, 9, 9] shortFile).song.isNone
      = true ∧
    memReader.Tell
      (SndFile_OpenSong memReader demoDecoder memCreateDecoder [9, 9, 9, 9] shortFile).probed
      = 0 :=
  ⟨(OpenSong_result memReader demoDecoder memCreateDecoder [9, 9, 9, 9] oggFile
      (fun _ => rfl)).2.2.1,
    by decide,
    (OpenSong_result memReader demoDecoder memCreateDecoder [9, 9, 9, 9] shortFile
      (fun _ => rfl)).2.2.2.1⟩

/-! ## After leaving the loop region -/

/-- The call that follows a call which left the loop region: with the decoder beyond `Loop_End`
the subtraction `Loop_End - currentpos` wraps and the first request is for
`2^64 - 32688` bytes, far beyond the 32768 bytes of the buffer. -/
theorem Read_after_leaving_loop_region :
    (SndFileSong.Read longDecoder longLoopSongAfter (List.replicate 32768 0) 32768).2.trace.take 4
      = [Event.Enter, Event.GetSampleOffset 8182, Event.SizeSub 10 8182,
          Event.DecRead 0 (2 ^ 64 - 32688) 17179836496] ∧
    ¬ ∀ e ∈ (SndFileSong.Read longDecoder longLoopSongAfter (List.replicate 32768 0) 32768).2.trace,
        e.InBounds 32768 := by
  have hw : sizeAdd (longDecoder.getSampleOffset longLoopSongAfter.Decoder)
      (framesToRead longLoopSongAfter 32768) > longLoopSongAfter.Loop_End := by decide
  have he : sizeMul (sizeMul (sizeSub 10 8182) longLoopSongAfter.Channels) 2 =
      2 ^ 64 - 32688 := by
    decide
  have hl1 : (longDecoder.read longLoopSongAfter.Decoder (2 ^ 64 - 32688)).1.length =
      17179836496 := by
    show (pcmRead 2 (2 ^ 32 + 10) SIZE_MOD 8182 (2 ^ 64 - 32688)).1.length = 17179836496
    simp only [pcmRead, List.length_map, List.length_range]
    decide
  have hp : longDecoder.getSampleOffset longLoopSongAfter.Decoder = 8182 := by decide
  have hE : longLoopSongAfter.Loop_End = 10 := by decide
  rw [Read_loop_wrap longDecoder longLoopSongAfter _ 32768 rfl hw]
  simp only [hp, hE, he, hl1]
  refine ⟨rfl, ?_⟩
  intro h
  have h2 := h (Event.SizeSub 10 8182) (by simp)
  simp [Event.InBounds] at h2

end MusicLibSndFile
